import Mathlib

/-!
# ma::echo::server::qt::Service and ma::tutorial::async_base

A shallow embedding of the lifecycle controller of
`src/ma/echo/server/qt/service.cpp` and of the asynchronous-operation base of
`include/ma/tutorial/async_base.hpp`, followed by the properties proved about
them.

Conventions of the embedding.

* A member function that mutates the object becomes a function from the object
  value to the new object value together with the ordered list of effects it
  performed (signals emitted, calls made on the session manager, threads
  created).
* `servant_->...` on an empty pointer has no defined result; the three member
  functions that dereference `servant_` return an `Option`, which is `none`
  in that case. The others are total.
* `forwardSignal_->emitX(e)` and `emit X(e)` are kept apart as two effects.
  The constructor of `Service` connects each signal of `forwardSignal_` to the
  signal of the same name of the `Service`, so both are emissions of `X(e)`
  by the service; `emitted` reads them off a list of effects.
-/

namespace ma.echo.server

/-- The two `server_error` enumerators that `service.cpp` uses. -/
inductive server_error where
  | invalid_state
  | operation_aborted
  deriving DecidableEq, Repr

end ma.echo.server

namespace boost.system

/-- A `boost::system::error_code` as this code sees it: either one made from a
`server_error`, or any other code, given by its integer value. -/
inductive error_code where
  | server (e : ma.echo.server.server_error)
  | system (value : Int)
  deriving DecidableEq, Repr

/-- The conversion of an `error_code` to `bool` used by `if (error)`: true for
every code whose value is not zero. The `server_error` enumerators are error
values. -/
def error_code.failed : error_code → Bool
  | error_code.server _ => true
  | error_code.system value => decide (value ≠ 0)

/-- The default-constructed `error_code`, which reports success. -/
def error_code.success : error_code := error_code.system 0

end boost.system

namespace ma.echo.server.qt

open boost.system (error_code)

/-- The `execution_options` value: the sizes of the two thread pools. -/
structure execution_options where
  session_manager_thread_count : Nat
  session_thread_count : Nat
  deriving DecidableEq, Repr

/-- The `session_manager_options` value; the service only forwards it. -/
structure session_manager_options where
  payload : Nat
  deriving DecidableEq, Repr

/-- The enumeration `ServiceState::State`. -/
inductive ServiceState where
  | Stopped
  | Starting
  | Started
  | Stopping
  deriving DecidableEq, Repr

/-- The signals of `Service`. -/
inductive Signal where
  | startCompleted (error : error_code)
  | stopCompleted (error : error_code)
  | workCompleted (error : error_code)
  | exceptionHappened
  deriving DecidableEq, Repr

/-- The asynchronous operations the service requests from the session manager
of its servant. -/
inductive SessionManagerCall where
  | async_start
  | async_wait
  | async_stop
  deriving DecidableEq, Repr

/-- One observable action of a member function of `Service`. -/
inductive Effect where
  | forward (signal : Signal)
  | emit (signal : Signal)
  | create_thread
  | session_manager (call : SessionManagerCall)
  deriving DecidableEq, Repr

/-- The class `Service::servant`: the options it was constructed from and the
number of threads in the thread group of its execution system. -/
structure servant where
  execution_options_ : execution_options
  session_manager_options_ : session_manager_options
  threads_ : Nat
  deriving DecidableEq, Repr

/-- The data members of `Service` that its member functions read or write:
`currentState_`, `servant_` (an owning pointer, empty or not) and
`servantSignal_` (a shared pointer, empty or not). -/
structure Service where
  currentState_ : ServiceState
  servant_ : Option servant
  servantSignal_ : Bool
  deriving DecidableEq, Repr

/-- What a member function leaves behind: the object and the effects performed,
in program order. -/
structure Outcome where
  service : Service
  effects : List Effect
  deriving DecidableEq, Repr

/-- The constructor `Service::Service`: state `Stopped`, no servant, no servant
signal. -/
def Service.init : Service :=
  { currentState_ := ServiceState.Stopped, servant_ := none, servantSignal_ := false }

/-- The constructor `servant::servant`: an execution system with an empty thread
group. -/
def servant.new (the_execution_options : execution_options)
    (the_session_manager_options : session_manager_options) : servant :=
  { execution_options_ := the_execution_options,
    session_manager_options_ := the_session_manager_options,
    threads_ := 0 }

/-- The member `execution_system::create_threads`, reached through
`servant::create_threads`: one thread per session thread, then one per session
manager thread. -/
def servant.create_threads (sv : servant) : servant :=
  { sv with
    threads_ := sv.threads_ + sv.execution_options_.session_thread_count
      + sv.execution_options_.session_manager_thread_count }

/-- The `create_thread` effects of one call of `create_threads`. -/
def create_threads_effects (sv : servant) : List Effect :=
  List.replicate sv.execution_options_.session_thread_count Effect.create_thread
    ++ List.replicate sv.execution_options_.session_manager_thread_count Effect.create_thread

/-- The member `Service::createServant`. -/
def createServant (s : Service) (the_execution_options : execution_options)
    (the_session_manager_options : session_manager_options) : Service :=
  { s with
    servant_ := some (servant.new the_execution_options the_session_manager_options),
    servantSignal_ := true }

/-- The member `Service::destroyServant`. -/
def destroyServant (s : Service) : Service :=
  let s1 := if s.servantSignal_ then { s with servantSignal_ := false } else s
  { s1 with servant_ := none }

/-- The member `Service::asyncStart`. -/
def asyncStart (s : Service) (the_execution_options : execution_options)
    (the_session_manager_options : session_manager_options) : Option Outcome :=
  if ServiceState.Stopped ≠ s.currentState_ then
    some ⟨s, [Effect.forward (Signal.startCompleted
      (error_code.server server_error.invalid_state))]⟩
  else
    let s1 := createServant s the_execution_options the_session_manager_options
    match s1.servant_ with
    | none => none
    | some sv =>
      let s2 := { s1 with servant_ := some sv.create_threads }
      match s2.servant_ with
      | none => none
      | some _ =>
        some ⟨{ s2 with currentState_ := ServiceState.Starting },
          create_threads_effects sv
            ++ [Effect.session_manager SessionManagerCall.async_start]⟩

/-- The slot `Service::onSessionManagerStartCompleted`. -/
def onSessionManagerStartCompleted (s : Service) (error : error_code) : Option Outcome :=
  if ServiceState.Starting = s.currentState_ then
    if error.failed then
      let s1 := destroyServant s
      some ⟨{ s1 with currentState_ := ServiceState.Stopped },
        [Effect.emit (Signal.startCompleted error)]⟩
    else
      match s.servant_ with
      | none => none
      | some _ =>
        some ⟨{ s with currentState_ := ServiceState.Started },
          [Effect.session_manager SessionManagerCall.async_wait,
           Effect.emit (Signal.startCompleted error)]⟩
  else
    some ⟨s, []⟩

/-- The member `Service::asyncStop`. -/
def asyncStop (s : Service) : Option Outcome :=
  if ServiceState.Stopped = s.currentState_ ∨ ServiceState.Stopping = s.currentState_ then
    some ⟨s, [Effect.forward (Signal.stopCompleted
      (error_code.server server_error.invalid_state))]⟩
  else
    let aborted : List Effect :=
      if ServiceState.Starting = s.currentState_ then
        [Effect.forward (Signal.startCompleted
          (error_code.server server_error.operation_aborted))]
      else if ServiceState.Started = s.currentState_ then
        [Effect.forward (Signal.workCompleted
          (error_code.server server_error.operation_aborted))]
      else
        []
    match s.servant_ with
    | none => none
    | some _ =>
      some ⟨{ s with currentState_ := ServiceState.Stopping },
        aborted ++ [Effect.session_manager SessionManagerCall.async_stop]⟩

/-- The slot `Service::onSessionManagerStopCompleted`. -/
def onSessionManagerStopCompleted (s : Service) (error : error_code) : Outcome :=
  if ServiceState.Stopping = s.currentState_ then
    let s1 := destroyServant s
    ⟨{ s1 with currentState_ := ServiceState.Stopped },
      [Effect.emit (Signal.stopCompleted error)]⟩
  else
    ⟨s, []⟩

/-- The member `Service::terminate`. -/
def terminate (s : Service) : Outcome :=
  let s1 := destroyServant s
  let aborted : List Effect :=
    if ServiceState.Starting = s1.currentState_ then
      [Effect.forward (Signal.startCompleted
        (error_code.server server_error.operation_aborted))]
    else if ServiceState.Started = s1.currentState_ then
      [Effect.forward (Signal.workCompleted
        (error_code.server server_error.operation_aborted))]
    else if ServiceState.Stopping = s1.currentState_ then
      [Effect.forward (Signal.stopCompleted
        (error_code.server server_error.operation_aborted))]
    else
      []
  ⟨{ s1 with currentState_ := ServiceState.Stopped }, aborted⟩

/-- The slot `Service::onSessionManagerWaitCompleted`. -/
def onSessionManagerWaitCompleted (s : Service) (error : error_code) : Outcome :=
  if ServiceState.Started = s.currentState_ then
    ⟨s, [Effect.emit (Signal.workCompleted error)]⟩
  else
    ⟨s, []⟩

/-- The slot `Service::onWorkThreadExceptionHappened`. -/
def onWorkThreadExceptionHappened (s : Service) : Outcome :=
  if ServiceState.Stopped ≠ s.currentState_ then
    ⟨s, [Effect.emit Signal.exceptionHappened]⟩
  else
    ⟨s, []⟩

/-- The signals a list of effects delivers to the consumers of the service,
in order: those emitted by the service itself and those emitted through
`forwardSignal_`. -/
def emitted : List Effect → List Signal
  | [] => []
  | Effect.forward signal :: rest => signal :: emitted rest
  | Effect.emit signal :: rest => signal :: emitted rest
  | Effect.create_thread :: rest => emitted rest
  | Effect.session_manager _ :: rest => emitted rest

/-- The calls a list of effects makes on the session manager, in order. -/
def requested : List Effect → List SessionManagerCall
  | [] => []
  | Effect.session_manager call :: rest => call :: requested rest
  | Effect.forward _ :: rest => requested rest
  | Effect.emit _ :: rest => requested rest
  | Effect.create_thread :: rest => requested rest

/-- The signals an outcome delivers. -/
def Outcome.signals (o : Outcome) : List Signal :=
  emitted o.effects

/-- The session manager calls an outcome made. -/
def Outcome.calls (o : Outcome) : List SessionManagerCall :=
  requested o.effects

/-- Everything that can happen to a `Service`: a call of one of its three
public operations, or the delivery of one of the four signals of the servant
to the slot connected to it in `createServant`. -/
inductive Input where
  | asyncStart (the_execution_options : execution_options)
      (the_session_manager_options : session_manager_options)
  | asyncStop
  | terminate
  | sessionManagerStartCompleted (error : error_code)
  | sessionManagerStopCompleted (error : error_code)
  | sessionManagerWaitCompleted (error : error_code)
  | workThreadExceptionHappened
  deriving DecidableEq, Repr

/-- The member function or slot that an input runs. -/
def step (s : Service) : Input → Option Outcome
  | Input.asyncStart eo so => asyncStart s eo so
  | Input.asyncStop => asyncStop s
  | Input.terminate => some (terminate s)
  | Input.sessionManagerStartCompleted error => onSessionManagerStartCompleted s error
  | Input.sessionManagerStopCompleted error => some (onSessionManagerStopCompleted s error)
  | Input.sessionManagerWaitCompleted error => some (onSessionManagerWaitCompleted s error)
  | Input.workThreadExceptionHappened => some (onWorkThreadExceptionHappened s)

/-- The inputs of a list applied one after the other, with all the effects
performed on the way. -/
def run (s : Service) : List Input → Option Outcome
  | [] => some ⟨s, []⟩
  | input :: rest =>
    match step s input with
    | none => none
    | some o1 =>
      match run o1.service rest with
      | none => none
      | some o2 => some ⟨o2.service, o1.effects ++ o2.effects⟩

/-- A service object that some sequence of inputs produces from a freshly
constructed one. -/
def Reachable (s : Service) : Prop :=
  ∃ inputs effects, run Service.init inputs = some ⟨s, effects⟩

/-- Recognises `startCompleted`, whatever the error code. -/
def Signal.isStartCompleted : Signal → Bool
  | Signal.startCompleted _ => true
  | _ => false

/-- Recognises `stopCompleted`, whatever the error code. -/
def Signal.isStopCompleted : Signal → Bool
  | Signal.stopCompleted _ => true
  | _ => false

/-- Recognises a call of `asyncStart`. -/
def Input.isAsyncStart : Input → Bool
  | Input.asyncStart _ _ => true
  | _ => false

/-- Recognises a call of `asyncStop`. -/
def Input.isAsyncStop : Input → Bool
  | Input.asyncStop => true
  | _ => false

/-- The number of `startCompleted` signals among the effects. -/
def startCompletedCount (effects : List Effect) : Nat :=
  (emitted effects).countP Signal.isStartCompleted

/-- The number of `stopCompleted` signals among the effects. -/
def stopCompletedCount (effects : List Effect) : Nat :=
  (emitted effects).countP Signal.isStopCompleted

/-- The number of `asyncStart` calls among the inputs. -/
def asyncStartCalls (inputs : List Input) : Nat :=
  inputs.countP Input.isAsyncStart

/-- The number of `asyncStop` calls among the inputs. -/
def asyncStopCalls (inputs : List Input) : Nat :=
  inputs.countP Input.isAsyncStop

/-- One when a start is pending, that is in state `Starting`, zero otherwise. -/
def pendingStart (s : Service) : Nat :=
  if s.currentState_ = ServiceState.Starting then 1 else 0

/-- One when a stop is pending, that is in state `Stopping`, zero otherwise. -/
def pendingStop (s : Service) : Nat :=
  if s.currentState_ = ServiceState.Stopping then 1 else 0

/-- The servant exists exactly in the states other than `Stopped`. -/
def Consistent (s : Service) : Prop :=
  s.servant_.isSome = true ↔ s.currentState_ ≠ ServiceState.Stopped

end ma.echo.server.qt

namespace ma

/-- The failure of `handler_storage::put` on a storage that already holds a
handler. -/
inductive handler_storage_error where
  | already_pending
  deriving DecidableEq, Repr

/-- Modelled from the spec: the class template `ma::handler_storage` of
`ma/handler_storage.hpp`, which `async_base.hpp` includes and which is not among
the sources. It holds zero or one stored handler. -/
structure handler_storage (Handler : Type) where
  target : Option Handler
  deriving DecidableEq, Repr

/-- Modelled from the spec: `handler_storage::has_target`, true when a handler
is stored. -/
def handler_storage.has_target {Handler : Type} (st : handler_storage Handler) : Bool :=
  st.target.isSome

/-- Modelled from the spec: `handler_storage::put`, which stores the handler and
fails when a handler is already stored. -/
def handler_storage.put {Handler : Type} (st : handler_storage Handler) (handler : Handler) :
    Except handler_storage_error (handler_storage Handler) :=
  match st.target with
  | some _ => Except.error handler_storage_error.already_pending
  | none => Except.ok { target := some handler }

/-- Modelled from the spec: `handler_storage::post`. When a handler is stored
it is scheduled on the owning `io_service` with the given argument and the
storage is cleared; when none is stored nothing happens. The result is the
storage afterwards and the tasks to append to the queue of the `io_service`. -/
def handler_storage.post {Handler Arg : Type} (st : handler_storage Handler) (arg : Arg) :
    handler_storage Handler × List (Handler × Arg) :=
  match st.target with
  | some handler => ({ target := none }, [(handler, arg)])
  | none => (st, [])

namespace tutorial

open boost.system (error_code)

/-- The class `async_base` together with the `io_service` of its strand.
`derived` is the state of the class that derives from it, which `do_something`
reads and writes; `io_service_` is the queue of tasks posted to
`strand_.get_io_service()` and not yet run, each a handler bound to its
argument; `invoked_` lists the handler calls the `io_service` has made. -/
structure async_base (Derived Handler : Type) where
  derived : Derived
  do_something_handler_ : handler_storage Handler
  io_service_ : List (Handler × error_code)
  invoked_ : List (Handler × error_code)

/-- The member `async_base::has_do_something_handler`. -/
def async_base.has_do_something_handler {Derived Handler : Type}
    (a : async_base Derived Handler) : Bool :=
  a.do_something_handler_.has_target

/-- The member `async_base::complete_do_something`. -/
def async_base.complete_do_something {Derived Handler : Type}
    (a : async_base Derived Handler) (error : error_code) : async_base Derived Handler :=
  let posted := a.do_something_handler_.post error
  { a with do_something_handler_ := posted.1, io_service_ := a.io_service_ ++ posted.2 }

/-- The member `async_base::begin_do_something`. The pure virtual
`do_something` is a parameter: it acts on the derived state and returns an
optional `error_code`. -/
def async_base.begin_do_something {Derived Handler : Type}
    (do_something : Derived → Derived × Option error_code)
    (a : async_base Derived Handler) (handler : Handler) :
    Except handler_storage_error (async_base Derived Handler) :=
  match do_something a.derived with
  | (derived, some result) =>
    Except.ok { a with derived := derived, io_service_ := a.io_service_ ++ [(handler, result)] }
  | (derived, none) =>
    match a.do_something_handler_.put handler with
    | Except.error e => Except.error e
    | Except.ok st => Except.ok { a with derived := derived, do_something_handler_ := st }

/-- The `io_service` running every task of its queue, in the order they were
posted: each handler is called with the argument bound to it. -/
def async_base.run_io_service {Derived Handler : Type}
    (a : async_base Derived Handler) : async_base Derived Handler :=
  { a with io_service_ := [], invoked_ := a.invoked_ ++ a.io_service_ }

end tutorial

end ma

/-! ## Properties of `Service` -/

namespace ma.echo.server.qt

open boost.system (error_code)

theorem emitted_append (l1 l2 : List Effect) :
    emitted (l1 ++ l2) = emitted l1 ++ emitted l2 := by
  induction l1 with
  | nil => rfl
  | cons e rest ih => cases e <;> simp [emitted, ih]

theorem requested_append (l1 l2 : List Effect) :
    requested (l1 ++ l2) = requested l1 ++ requested l2 := by
  induction l1 with
  | nil => rfl
  | cons e rest ih => cases e <;> simp [requested, ih]

theorem emitted_replicate_create_thread (n : Nat) :
    emitted (List.replicate n Effect.create_thread) = [] := by
  induction n with
  | zero => rfl
  | succ n ih => simp [List.replicate_succ, emitted, ih]

theorem requested_replicate_create_thread (n : Nat) :
    requested (List.replicate n Effect.create_thread) = [] := by
  induction n with
  | zero => rfl
  | succ n ih => simp [List.replicate_succ, requested, ih]

theorem emitted_create_threads_effects (sv : servant) :
    emitted (create_threads_effects sv) = [] := by
  simp [create_threads_effects, emitted_append, emitted_replicate_create_thread]

theorem requested_create_threads_effects (sv : servant) :
    requested (create_threads_effects sv) = [] := by
  simp [create_threads_effects, requested_append, requested_replicate_create_thread]

theorem destroyServant_eq (s : Service) :
    destroyServant s
      = { currentState_ := s.currentState_, servant_ := none, servantSignal_ := false } := by
  obtain ⟨st, sv, sig⟩ := s
  cases sig <;> simp [destroyServant]

theorem startCompletedCount_append (l1 l2 : List Effect) :
    startCompletedCount (l1 ++ l2) = startCompletedCount l1 + startCompletedCount l2 := by
  simp [startCompletedCount, emitted_append, List.countP_append]

theorem stopCompletedCount_append (l1 l2 : List Effect) :
    stopCompletedCount (l1 ++ l2) = stopCompletedCount l1 + stopCompletedCount l2 := by
  simp [stopCompletedCount, emitted_append, List.countP_append]

/-- One input on a consistent object: the member function returns, the object
stays consistent, and the completions emitted plus the operation left pending
equal the operation called plus the operation that was pending. -/
theorem step_consistent (s : Service) (input : Input) (h : Consistent s) :
    ∃ o, step s input = some o ∧ Consistent o.service
      ∧ startCompletedCount o.effects + pendingStart o.service
          = (if input.isAsyncStart then 1 else 0) + pendingStart s
      ∧ stopCompletedCount o.effects + pendingStop o.service
          = (if input.isAsyncStop then 1 else 0) + pendingStop s := by
  obtain ⟨st, sv, sig⟩ := s
  cases input <;> cases st <;> cases sv <;> simp [Consistent] at h <;>
    simp [step, asyncStart, asyncStop, terminate, onSessionManagerStartCompleted,
      onSessionManagerStopCompleted, onSessionManagerWaitCompleted,
      onWorkThreadExceptionHappened, createServant, destroyServant_eq, Consistent,
      startCompletedCount, stopCompletedCount, pendingStart, pendingStop, emitted,
      emitted_append, emitted_create_threads_effects, Input.isAsyncStart, Input.isAsyncStop,
      Signal.isStartCompleted, Signal.isStopCompleted]
  split_ifs <;> simp [emitted, Signal.isStartCompleted, Signal.isStopCompleted]

/-- Any sequence of inputs on a consistent object: every member function
returns, the object stays consistent, and the completions emitted plus the
operation left pending equal the operations called plus the operation that was
pending. -/
theorem run_consistent (inputs : List Input) :
    ∀ s : Service, Consistent s →
      ∃ o, run s inputs = some o ∧ Consistent o.service
        ∧ startCompletedCount o.effects + pendingStart o.service
            = asyncStartCalls inputs + pendingStart s
        ∧ stopCompletedCount o.effects + pendingStop o.service
            = asyncStopCalls inputs + pendingStop s := by
  induction inputs with
  | nil =>
    intro s h
    exact ⟨⟨s, []⟩, rfl, h,
      by simp [startCompletedCount, emitted, asyncStartCalls],
      by simp [stopCompletedCount, emitted, asyncStopCalls]⟩
  | cons input rest ih =>
    intro s h
    obtain ⟨o1, h1, c1, a1, b1⟩ := step_consistent s input h
    obtain ⟨o2, h2, c2, a2, b2⟩ := ih o1.service c1
    refine ⟨⟨o2.service, o1.effects ++ o2.effects⟩, by simp [run, h1, h2], c2, ?_, ?_⟩
    · simp only [startCompletedCount_append, asyncStartCalls, List.countP_cons] at *
      omega
    · simp only [stopCompletedCount_append, asyncStopCalls, List.countP_cons] at *
      omega

theorem init_consistent : Consistent Service.init := by
  simp [Consistent, Service.init]

theorem reachable_consistent (s : Service) (h : Reachable s) : Consistent s := by
  obtain ⟨inputs, effects, hrun⟩ := h
  obtain ⟨o, ho, hc, _, _⟩ := run_consistent inputs Service.init init_consistent
  rw [hrun] at ho
  cases ho
  exact hc

/-- With a servant in place, `asyncStop` in state `Starting` or `Started`
reports the operation it preempts, asks the session manager to stop and moves
to `Stopping`, the servant untouched. -/
theorem asyncStop_proceeds (sv : servant) (sig : Bool) :
    asyncStop ⟨ServiceState.Starting, some sv, sig⟩
      = some ⟨⟨ServiceState.Stopping, some sv, sig⟩,
          [Effect.forward (Signal.startCompleted
            (error_code.server server_error.operation_aborted)),
           Effect.session_manager SessionManagerCall.async_stop]⟩
    ∧ asyncStop ⟨ServiceState.Started, some sv, sig⟩
      = some ⟨⟨ServiceState.Stopping, some sv, sig⟩,
          [Effect.forward (Signal.workCompleted
            (error_code.server server_error.operation_aborted)),
           Effect.session_manager SessionManagerCall.async_stop]⟩ := by
  constructor <;> simp [asyncStop]

/-- A stop completion in state `Stopping` destroys the servant, moves to
`Stopped` and emits `stopCompleted` with the code it was given. -/
theorem onSessionManagerStopCompleted_in_Stopping (sv : Option servant) (sig : Bool)
    (e : error_code) :
    onSessionManagerStopCompleted ⟨ServiceState.Stopping, sv, sig⟩ e
      = ⟨Service.init, [Effect.emit (Signal.stopCompleted e)]⟩ := by
  simp [onSessionManagerStopCompleted, destroyServant_eq, Service.init]

/-- A reachable object in a state other than `Stopped` holds a servant. -/
theorem reachable_servant (s : Service) (hr : Reachable s)
    (hs : s.currentState_ ≠ ServiceState.Stopped) : ∃ sv, s.servant_ = some sv := by
  have hc := reachable_consistent s hr
  exact Option.isSome_iff_exists.mp (hc.mpr hs)

/-- The two branches of `asyncStart`. -/
theorem asyncStart_branches (s : Service) (eo : execution_options)
    (so : session_manager_options) :
    (s.currentState_ ≠ ServiceState.Stopped →
      asyncStart s eo so = some ⟨s, [Effect.forward
        (Signal.startCompleted (error_code.server server_error.invalid_state))]⟩)
    ∧ (s.currentState_ = ServiceState.Stopped →
      asyncStart s eo so = some
        ⟨{ currentState_ := ServiceState.Starting,
           servant_ := some (servant.new eo so).create_threads,
           servantSignal_ := true },
         create_threads_effects (servant.new eo so)
           ++ [Effect.session_manager SessionManagerCall.async_start]⟩) := by
  obtain ⟨st, sv, sig⟩ := s
  constructor
  · intro h
    have h1 : ServiceState.Stopped ≠ st := fun h2 => h h2.symm
    simp [asyncStart, h1]
  · intro h
    simp only at h
    subst h
    simp [asyncStart, createServant]

/-- C2. From every state `terminate` leaves state `Stopped` with no servant
and no servant signal, calls nothing on the session manager, and emits exactly
the aborted completion of the state it found: `startCompleted` in `Starting`,
`workCompleted` in `Started`, `stopCompleted` in `Stopping`, nothing in
`Stopped`; so at most one signal. -/
theorem terminate_resets_and_reports (s : Service) :
    (terminate s).service = Service.init
    ∧ (terminate s).service.currentState_ = ServiceState.Stopped
    ∧ (terminate s).service.servant_ = none
    ∧ emitted (terminate s).effects =
        (match s.currentState_ with
          | ServiceState.Starting =>
            [Signal.startCompleted (error_code.server server_error.operation_aborted)]
          | ServiceState.Started =>
            [Signal.workCompleted (error_code.server server_error.operation_aborted)]
          | ServiceState.Stopping =>
            [Signal.stopCompleted (error_code.server server_error.operation_aborted)]
          | ServiceState.Stopped => [])
    ∧ (terminate s).effects = (emitted (terminate s).effects).map Effect.forward
    ∧ requested (terminate s).effects = []
    ∧ (emitted (terminate s).effects).length ≤ 1 := by
  obtain ⟨st, sv, sig⟩ := s
  cases st <;> cases sig <;>
    simp [terminate, destroyServant, Service.init, emitted, requested]

/-- C4. In every state other than `Stopped`, `asyncStart` only emits
`startCompleted(invalid_state)`: the object, its servant included, is left as
it was and nothing is asked of the session manager. In state `Stopped` it emits
nothing, creates a servant from the options given, starts its threads, asks the
session manager to start and moves to `Starting`. -/
theorem asyncStart_guard (s : Service) (eo : execution_options)
    (so : session_manager_options) :
    (s.currentState_ ≠ ServiceState.Stopped →
      asyncStart s eo so = some ⟨s, [Effect.forward
        (Signal.startCompleted (error_code.server server_error.invalid_state))]⟩
      ∧ (asyncStart s eo so).map Outcome.signals =
          some [Signal.startCompleted (error_code.server server_error.invalid_state)]
      ∧ (asyncStart s eo so).map Outcome.calls = some []
      ∧ (asyncStart s eo so).map Outcome.service = some s)
    ∧ (s.currentState_ = ServiceState.Stopped →
      asyncStart s eo so = some
        ⟨{ currentState_ := ServiceState.Starting,
           servant_ := some (servant.new eo so).create_threads,
           servantSignal_ := true },
         create_threads_effects (servant.new eo so)
           ++ [Effect.session_manager SessionManagerCall.async_start]⟩
      ∧ (asyncStart s eo so).map Outcome.signals = some []
      ∧ (asyncStart s eo so).map Outcome.calls = some [SessionManagerCall.async_start]) := by
  obtain ⟨st, sv, sig⟩ := s
  constructor
  · intro h
    have h1 : ServiceState.Stopped ≠ st := fun h2 => h h2.symm
    simp [asyncStart, h1, Outcome.signals, Outcome.calls, emitted, requested]
  · intro h
    simp only at h
    subst h
    simp [asyncStart, createServant, Outcome.signals, Outcome.calls, emitted, requested,
      emitted_append, requested_append, emitted_create_threads_effects,
      requested_create_threads_effects]

/-- The rejection and the acceptance of C4 at concrete services: one that is
`Started` with a servant of three threads, and a fresh one. -/
theorem asyncStart_guard_witness :
    asyncStart ⟨ServiceState.Started, some ⟨⟨1, 2⟩, ⟨0⟩, 3⟩, true⟩ ⟨4, 5⟩ ⟨6⟩
        = some ⟨⟨ServiceState.Started, some ⟨⟨1, 2⟩, ⟨0⟩, 3⟩, true⟩,
            [Effect.forward (Signal.startCompleted
              (error_code.server server_error.invalid_state))]⟩
    ∧ (asyncStart Service.init ⟨1, 2⟩ ⟨0⟩).map Outcome.calls
        = some [SessionManagerCall.async_start] :=
  ⟨((asyncStart_guard ⟨ServiceState.Started, some ⟨⟨1, 2⟩, ⟨0⟩, 3⟩, true⟩ ⟨4, 5⟩ ⟨6⟩).1
      (by decide)).1,
   ((asyncStart_guard Service.init ⟨1, 2⟩ ⟨0⟩).2 rfl).2.2⟩

/-- C5. In state `Stopped` and in state `Stopping`, `asyncStop` only emits
`stopCompleted(invalid_state)`: nothing is asked of the session manager and the
object, its state and servant included, is left as it was. On every reachable
object the servant it leaves in place is absent in `Stopped` and present in
`Stopping`. -/
theorem asyncStop_rejected (s : Service)
    (h : s.currentState_ = ServiceState.Stopped ∨ s.currentState_ = ServiceState.Stopping) :
    asyncStop s = some ⟨s, [Effect.forward
      (Signal.stopCompleted (error_code.server server_error.invalid_state))]⟩
    ∧ (asyncStop s).map Outcome.signals =
        some [Signal.stopCompleted (error_code.server server_error.invalid_state)]
    ∧ (asyncStop s).map Outcome.calls = some []
    ∧ (asyncStop s).map Outcome.service = some s
    ∧ (Reachable s →
        (s.currentState_ = ServiceState.Stopped → s.servant_ = none)
        ∧ (s.currentState_ = ServiceState.Stopping → s.servant_.isSome = true)) := by
  have hguard : (ServiceState.Stopped = s.currentState_ ∨ ServiceState.Stopping = s.currentState_) := by
    rcases h with h | h
    · exact Or.inl h.symm
    · exact Or.inr h.symm
  refine ⟨?_, ?_, ?_, ?_, ?_⟩
  · simp [asyncStop, hguard]
  · simp [asyncStop, hguard, Outcome.signals, emitted]
  · simp [asyncStop, hguard, Outcome.calls, requested]
  · simp [asyncStop, hguard]
  · intro hr
    have hc := reachable_consistent s hr
    unfold Consistent at hc
    constructor
    · intro hs
      cases hsv : s.servant_ with
      | none => rfl
      | some sv =>
        rw [hsv] at hc
        exact absurd hs (hc.mp rfl)
    · intro hs
      apply hc.mpr
      rw [hs]
      decide

/-- The rejection of C5 at the object that `asyncStart` followed by
`asyncStop` produces, which is `Stopping` and holds its servant. -/
theorem asyncStop_rejected_witness :
    asyncStop ⟨ServiceState.Stopping, some ⟨⟨1, 2⟩, ⟨0⟩, 3⟩, true⟩
        = some ⟨⟨ServiceState.Stopping, some ⟨⟨1, 2⟩, ⟨0⟩, 3⟩, true⟩,
            [Effect.forward (Signal.stopCompleted
              (error_code.server server_error.invalid_state))]⟩
    ∧ (some (⟨⟨1, 2⟩, ⟨0⟩, 3⟩ : servant)).isSome = true :=
  ⟨(asyncStop_rejected ⟨ServiceState.Stopping, some ⟨⟨1, 2⟩, ⟨0⟩, 3⟩, true⟩ (Or.inr rfl)).1,
   ((asyncStop_rejected ⟨ServiceState.Stopping, some ⟨⟨1, 2⟩, ⟨0⟩, 3⟩, true⟩
      (Or.inr rfl)).2.2.2.2
      ⟨[Input.asyncStart ⟨1, 2⟩ ⟨0⟩, Input.asyncStop], _, rfl⟩).2 rfl⟩

/-- C3. On every reachable object, `asyncStop` in state `Starting` emits
exactly `startCompleted(operation_aborted)` and in state `Started` exactly
`workCompleted(operation_aborted)`. In both it asks the session manager to stop
and moves to `Stopping` with the servant, which exists, kept. The stop
completion that follows, with any code `e`, emits exactly `stopCompleted(e)`,
destroys the servant and moves to `Stopped`, so the signals of the two steps
are the aborted completion first and `stopCompleted(e)` second. -/
theorem asyncStop_preempts_pending (s : Service) (e : error_code) (hr : Reachable s) :
    (s.currentState_ = ServiceState.Starting →
      asyncStop s = some ⟨{ s with currentState_ := ServiceState.Stopping },
        [Effect.forward (Signal.startCompleted
          (error_code.server server_error.operation_aborted)),
         Effect.session_manager SessionManagerCall.async_stop]⟩
      ∧ (asyncStop s).map Outcome.signals
          = some [Signal.startCompleted (error_code.server server_error.operation_aborted)]
      ∧ (run s [Input.asyncStop, Input.sessionManagerStopCompleted e]).map Outcome.signals
          = some [Signal.startCompleted (error_code.server server_error.operation_aborted),
              Signal.stopCompleted e])
    ∧ (s.currentState_ = ServiceState.Started →
      asyncStop s = some ⟨{ s with currentState_ := ServiceState.Stopping },
        [Effect.forward (Signal.workCompleted
          (error_code.server server_error.operation_aborted)),
         Effect.session_manager SessionManagerCall.async_stop]⟩
      ∧ (asyncStop s).map Outcome.signals
          = some [Signal.workCompleted (error_code.server server_error.operation_aborted)]
      ∧ (run s [Input.asyncStop, Input.sessionManagerStopCompleted e]).map Outcome.signals
          = some [Signal.workCompleted (error_code.server server_error.operation_aborted),
              Signal.stopCompleted e])
    ∧ (s.currentState_ = ServiceState.Starting ∨ s.currentState_ = ServiceState.Started →
      s.servant_.isSome = true
      ∧ (asyncStop s).map Outcome.calls = some [SessionManagerCall.async_stop]
      ∧ (asyncStop s).map (fun o => o.service.servant_) = some s.servant_
      ∧ (asyncStop s).map (fun o => o.service.currentState_) = some ServiceState.Stopping
      ∧ onSessionManagerStopCompleted { s with currentState_ := ServiceState.Stopping } e
          = ⟨Service.init, [Effect.emit (Signal.stopCompleted e)]⟩
      ∧ (run s [Input.asyncStop, Input.sessionManagerStopCompleted e]).map Outcome.service
          = some Service.init) := by
  obtain ⟨st, sv, sig⟩ := s
  refine ⟨?_, ?_, ?_⟩
  · intro hs
    simp only at hs
    subst hs
    obtain ⟨v, hv⟩ := reachable_servant _ hr (by simp)
    simp only at hv
    subst hv
    simp [run, step, (asyncStop_proceeds v sig).1, onSessionManagerStopCompleted_in_Stopping,
      Outcome.signals, emitted]
  · intro hs
    simp only at hs
    subst hs
    obtain ⟨v, hv⟩ := reachable_servant _ hr (by simp)
    simp only at hv
    subst hv
    simp [run, step, (asyncStop_proceeds v sig).2, onSessionManagerStopCompleted_in_Stopping,
      Outcome.signals, emitted]
  · intro hs
    simp only at hs
    rcases hs with hs | hs <;> subst hs
    · obtain ⟨v, hv⟩ := reachable_servant _ hr (by simp)
      simp only at hv
      subst hv
      simp [run, step, (asyncStop_proceeds v sig).1, onSessionManagerStopCompleted_in_Stopping,
        Outcome.calls, requested]
    · obtain ⟨v, hv⟩ := reachable_servant _ hr (by simp)
      simp only at hv
      subst hv
      simp [run, step, (asyncStop_proceeds v sig).2, onSessionManagerStopCompleted_in_Stopping,
        Outcome.calls, requested]

/-- The preemption of C3 at the object that `asyncStart` produces from a fresh
service, stopped with code 7. -/
theorem asyncStop_preempts_pending_witness :
    (run ⟨ServiceState.Starting, some ⟨⟨1, 2⟩, ⟨0⟩, 3⟩, true⟩
        [Input.asyncStop, Input.sessionManagerStopCompleted (error_code.system 7)]).map
        Outcome.signals
      = some [Signal.startCompleted (error_code.server server_error.operation_aborted),
          Signal.stopCompleted (error_code.system 7)]
    ∧ (some (⟨⟨1, 2⟩, ⟨0⟩, 3⟩ : servant)).isSome = true :=
  ⟨((asyncStop_preempts_pending ⟨ServiceState.Starting, some ⟨⟨1, 2⟩, ⟨0⟩, 3⟩, true⟩
      (error_code.system 7) ⟨[Input.asyncStart ⟨1, 2⟩ ⟨0⟩], _, rfl⟩).1 rfl).2.2,
   ((asyncStop_preempts_pending ⟨ServiceState.Starting, some ⟨⟨1, 2⟩, ⟨0⟩, 3⟩, true⟩
      (error_code.system 7) ⟨[Input.asyncStart ⟨1, 2⟩ ⟨0⟩], _, rfl⟩).2.2 (Or.inl rfl)).1⟩

/-- C6. On every reachable object in state `Starting`, a start completion with
code `e` emits exactly one signal, `startCompleted(e)`. When `e` is an error the
servant is destroyed and the state becomes `Stopped`; when `e` is success the
servant, which exists, is kept, the session manager is asked to wait, and the
state becomes `Started`. -/
theorem onSessionManagerStartCompleted_in_Starting (s : Service) (e : error_code)
    (hr : Reachable s) (hs : s.currentState_ = ServiceState.Starting) :
    (onSessionManagerStartCompleted s e).map Outcome.signals = some [Signal.startCompleted e]
    ∧ (e.failed = true →
        onSessionManagerStartCompleted s e
          = some ⟨Service.init, [Effect.emit (Signal.startCompleted e)]⟩
        ∧ (onSessionManagerStartCompleted s e).map Outcome.calls = some [])
    ∧ (e.failed = false →
        s.servant_.isSome = true
        ∧ onSessionManagerStartCompleted s e
          = some ⟨{ s with currentState_ := ServiceState.Started },
              [Effect.session_manager SessionManagerCall.async_wait,
               Effect.emit (Signal.startCompleted e)]⟩
        ∧ (onSessionManagerStartCompleted s e).map Outcome.calls
          = some [SessionManagerCall.async_wait]) := by
  obtain ⟨st, sv, sig⟩ := s
  simp only at hs
  subst hs
  obtain ⟨v, hv⟩ := reachable_servant _ hr (by simp)
  simp only at hv
  subst hv
  cases hf : e.failed <;>
    simp [onSessionManagerStartCompleted, hf, destroyServant_eq, Service.init,
      Outcome.signals, Outcome.calls, emitted, requested]

/-- The two branches of C6 at the object that `asyncStart` produces from a
fresh service: success keeps the servant and moves to `Started`, the code 7
destroys it and moves to `Stopped`. -/
theorem onSessionManagerStartCompleted_in_Starting_witness :
    onSessionManagerStartCompleted ⟨ServiceState.Starting, some ⟨⟨1, 2⟩, ⟨0⟩, 3⟩, true⟩
        error_code.success
      = some ⟨⟨ServiceState.Started, some ⟨⟨1, 2⟩, ⟨0⟩, 3⟩, true⟩,
          [Effect.session_manager SessionManagerCall.async_wait,
           Effect.emit (Signal.startCompleted error_code.success)]⟩
    ∧ onSessionManagerStartCompleted ⟨ServiceState.Starting, some ⟨⟨1, 2⟩, ⟨0⟩, 3⟩, true⟩
        (error_code.system 7)
      = some ⟨Service.init, [Effect.emit (Signal.startCompleted (error_code.system 7))]⟩ :=
  ⟨((onSessionManagerStartCompleted_in_Starting
      ⟨ServiceState.Starting, some ⟨⟨1, 2⟩, ⟨0⟩, 3⟩, true⟩ error_code.success
      ⟨[Input.asyncStart ⟨1, 2⟩ ⟨0⟩], _, rfl⟩ rfl).2.2 (by decide)).2.1,
   ((onSessionManagerStartCompleted_in_Starting
      ⟨ServiceState.Starting, some ⟨⟨1, 2⟩, ⟨0⟩, 3⟩, true⟩ (error_code.system 7)
      ⟨[Input.asyncStart ⟨1, 2⟩ ⟨0⟩], _, rfl⟩ rfl).2.1 (by decide)).1⟩

/-- C9. A start completion outside `Starting`, a stop completion outside
`Stopping` and a wait completion outside `Started` do nothing at all: no signal,
no call, and the object, its state and servant included, is left as it was. A
wait completion in `Started` emits exactly `workCompleted(e)` and also leaves
the object as it was. -/
theorem completion_inert_outside_its_state (s : Service) (e : error_code) :
    (s.currentState_ ≠ ServiceState.Starting →
      onSessionManagerStartCompleted s e = some ⟨s, []⟩)
    ∧ (s.currentState_ ≠ ServiceState.Stopping →
      onSessionManagerStopCompleted s e = ⟨s, []⟩)
    ∧ (s.currentState_ ≠ ServiceState.Started →
      onSessionManagerWaitCompleted s e = ⟨s, []⟩)
    ∧ (s.currentState_ = ServiceState.Started →
      onSessionManagerWaitCompleted s e = ⟨s, [Effect.emit (Signal.workCompleted e)]⟩
      ∧ (onSessionManagerWaitCompleted s e).signals = [Signal.workCompleted e]) := by
  refine ⟨?_, ?_, ?_, ?_⟩
  · intro h
    have h1 : ¬ ServiceState.Starting = s.currentState_ := fun h2 => h h2.symm
    simp [onSessionManagerStartCompleted, h1]
  · intro h
    have h1 : ¬ ServiceState.Stopping = s.currentState_ := fun h2 => h h2.symm
    simp [onSessionManagerStopCompleted, h1]
  · intro h
    have h1 : ¬ ServiceState.Started = s.currentState_ := fun h2 => h h2.symm
    simp [onSessionManagerWaitCompleted, h1]
  · intro h
    simp [onSessionManagerWaitCompleted, h, Outcome.signals, emitted]

/-- The four cases of C9 at concrete objects: stale completions with code 7 on
a fresh service, and a wait completion on a started one. -/
theorem completion_inert_outside_its_state_witness :
    onSessionManagerStartCompleted Service.init (error_code.system 7)
      = some ⟨Service.init, []⟩
    ∧ onSessionManagerStopCompleted Service.init (error_code.system 7) = ⟨Service.init, []⟩
    ∧ onSessionManagerWaitCompleted Service.init (error_code.system 7) = ⟨Service.init, []⟩
    ∧ (onSessionManagerWaitCompleted ⟨ServiceState.Started, some ⟨⟨1, 2⟩, ⟨0⟩, 3⟩, true⟩
        (error_code.system 7)).signals = [Signal.workCompleted (error_code.system 7)] :=
  ⟨(completion_inert_outside_its_state Service.init (error_code.system 7)).1 (by decide),
   (completion_inert_outside_its_state Service.init (error_code.system 7)).2.1 (by decide),
   (completion_inert_outside_its_state Service.init (error_code.system 7)).2.2.1 (by decide),
   ((completion_inert_outside_its_state ⟨ServiceState.Started, some ⟨⟨1, 2⟩, ⟨0⟩, 3⟩, true⟩
      (error_code.system 7)).2.2.2 rfl).2⟩

/-- C7, as stated, fails in state `Stopped`: two calls of `terminate` on a fresh
service emit no signal at all, so it is not true that from every state the two
calls emit exactly one signal in total. -/
theorem two_terminate_calls_from_Stopped_emit_nothing :
    (terminate Service.init).signals ++ (terminate (terminate Service.init).service).signals = []
    ∧ ¬ (∀ s : Service,
        ((terminate s).signals ++ (terminate (terminate s).service).signals).length = 1) := by
  have h : (terminate Service.init).signals
      ++ (terminate (terminate Service.init).service).signals = [] := by
    simp [terminate, destroyServant_eq, Service.init, Outcome.signals, emitted]
  refine ⟨h, fun hall => ?_⟩
  have h1 := hall Service.init
  rw [h] at h1
  simp at h1

/-- C7, amended. From every state, the second of two calls of `terminate` in a
row emits nothing and leaves the object as the first call left it, in state
`Stopped` with no servant. The two calls together emit what the first one
emits: exactly one signal from every state other than `Stopped`, and none from
`Stopped`. -/
theorem terminate_twice_in_a_row (s : Service) :
    terminate (terminate s).service = ⟨(terminate s).service, []⟩
    ∧ (terminate s).service = Service.init
    ∧ (terminate (terminate s).service).signals = []
    ∧ (terminate s).signals ++ (terminate (terminate s).service).signals = (terminate s).signals
    ∧ ((terminate s).signals ++ (terminate (terminate s).service).signals).length
        = (if s.currentState_ = ServiceState.Stopped then 0 else 1)
    ∧ (run s [Input.terminate, Input.terminate]).map Outcome.signals
        = some (terminate s).signals := by
  obtain ⟨st, sv, sig⟩ := s
  cases st <;>
    simp [run, step, terminate, destroyServant_eq, Service.init, Outcome.signals, emitted]

/-- C1. Every finite sequence of inputs applied to a fresh service runs to the
end, and afterwards the number of `startCompleted` signals emitted is the number
of `asyncStart` calls, less one exactly when the state is `Starting`; the number
of `stopCompleted` signals emitted is the number of `asyncStop` calls, less one
exactly when the state is `Stopping`. -/
theorem completions_match_calls (inputs : List Input) :
    ∃ o, run Service.init inputs = some o
      ∧ (startCompletedCount o.effects + 1 = asyncStartCalls inputs
          ↔ o.service.currentState_ = ServiceState.Starting)
      ∧ (startCompletedCount o.effects = asyncStartCalls inputs
          ↔ o.service.currentState_ ≠ ServiceState.Starting)
      ∧ (stopCompletedCount o.effects + 1 = asyncStopCalls inputs
          ↔ o.service.currentState_ = ServiceState.Stopping)
      ∧ (stopCompletedCount o.effects = asyncStopCalls inputs
          ↔ o.service.currentState_ ≠ ServiceState.Stopping) := by
  obtain ⟨o, ho, _, ha, hb⟩ := run_consistent inputs Service.init init_consistent
  refine ⟨o, ho, ?_, ?_, ?_, ?_⟩
  · by_cases hs : o.service.currentState_ = ServiceState.Starting <;>
      simp [pendingStart, pendingStop, Service.init, hs] at ha ⊢ <;> omega
  · by_cases hs : o.service.currentState_ = ServiceState.Starting <;>
      simp [pendingStart, pendingStop, Service.init, hs] at ha ⊢ <;> omega
  · by_cases hs : o.service.currentState_ = ServiceState.Stopping <;>
      simp [pendingStart, pendingStop, Service.init, hs] at hb ⊢ <;> omega
  · by_cases hs : o.service.currentState_ = ServiceState.Stopping <;>
      simp [pendingStart, pendingStop, Service.init, hs] at hb ⊢ <;> omega

/-- C10. Every finite sequence of inputs applied to a fresh service runs to the
end without a dereference of an absent servant, and afterwards the servant is
present exactly when the state is not `Stopped`. So in the object reached,
`asyncStop` and a start completion with any code find the servant they
dereference, and `asyncStart` either finds no servant or leaves the one it
finds in place. -/
theorem servant_present_iff_not_Stopped (inputs : List Input) :
    ∃ o, run Service.init inputs = some o
      ∧ (o.service.servant_.isSome = true ↔ o.service.currentState_ ≠ ServiceState.Stopped)
      ∧ (asyncStop o.service).isSome = true
      ∧ (∀ e, (onSessionManagerStartCompleted o.service e).isSome = true)
      ∧ (∀ eo so, ∃ o1, asyncStart o.service eo so = some o1
          ∧ (o.service.servant_ = none ∨ o1.service.servant_ = o.service.servant_)) := by
  obtain ⟨o, ho, hc, _, _⟩ := run_consistent inputs Service.init init_consistent
  refine ⟨o, ho, hc, ?_, ?_, ?_⟩
  · obtain ⟨o1, h1, _⟩ := step_consistent o.service Input.asyncStop hc
    simp only [step] at h1
    simp [h1]
  · intro e
    obtain ⟨o1, h1, _⟩ := step_consistent o.service (Input.sessionManagerStartCompleted e) hc
    simp only [step] at h1
    simp [h1]
  · intro eo so
    by_cases hs : o.service.currentState_ = ServiceState.Stopped
    · have h1 := (asyncStart_branches o.service eo so).2 hs
      refine ⟨_, h1, Or.inl ?_⟩
      cases hsv : o.service.servant_ with
      | none => rfl
      | some sv =>
        unfold Consistent at hc
        rw [hsv] at hc
        exact absurd hs (hc.mp rfl)
    · have h1 := (asyncStart_branches o.service eo so).1 hs
      exact ⟨_, h1, Or.inr rfl⟩

end ma.echo.server.qt

/-! ## Properties of `async_base` -/

namespace ma.tutorial

open boost.system (error_code)

/-- C8. When `do_something` returns a result `r`, `begin_do_something` appends
exactly the task `(handler, r)` to the queue of the `io_service`, calls no
handler itself and leaves the handler storage, hence
`has_do_something_handler`, as it was. When `do_something` returns no result
and the storage is empty, `begin_do_something` schedules nothing, calls no
handler and stores the handler; `complete_do_something(e)` then posts exactly
the task `(handler, e)` and empties the storage, a further
`complete_do_something` changes nothing, and once the `io_service` has run its
queue the only handler call added by all of this is `handler(e)`, once. -/
theorem begin_do_something_schedules_or_stores {Derived Handler : Type}
    (do_something : Derived → Derived × Option error_code)
    (a : async_base Derived Handler) (handler : Handler) :
    (∀ derived r, do_something a.derived = (derived, some r) →
      ∃ a1, a.begin_do_something do_something handler = Except.ok a1
        ∧ a1.io_service_ = a.io_service_ ++ [(handler, r)]
        ∧ a1.invoked_ = a.invoked_
        ∧ a1.do_something_handler_ = a.do_something_handler_
        ∧ a1.has_do_something_handler = a.has_do_something_handler)
    ∧ (∀ derived, do_something a.derived = (derived, none) →
      a.has_do_something_handler = false →
      ∃ a1, a.begin_do_something do_something handler = Except.ok a1
        ∧ a1.io_service_ = a.io_service_
        ∧ a1.invoked_ = a.invoked_
        ∧ a1.do_something_handler_.target = some handler
        ∧ a1.has_do_something_handler = true
        ∧ ∀ e e2,
          (a1.complete_do_something e).io_service_ = a.io_service_ ++ [(handler, e)]
          ∧ (a1.complete_do_something e).invoked_ = a.invoked_
          ∧ (a1.complete_do_something e).has_do_something_handler = false
          ∧ (a1.complete_do_something e).complete_do_something e2
              = a1.complete_do_something e
          ∧ ((a1.complete_do_something e).complete_do_something e2).run_io_service.invoked_
              = a.invoked_ ++ a.io_service_ ++ [(handler, e)]
          ∧ ((a1.complete_do_something e).complete_do_something e2).run_io_service.io_service_
              = []) := by
  obtain ⟨d, ⟨slot⟩, queue, calls⟩ := a
  constructor
  · intro derived r h
    simp only at h
    simp [async_base.begin_do_something, h, async_base.has_do_something_handler]
  · intro derived h hslot
    simp only at h
    simp only [async_base.has_do_something_handler, handler_storage.has_target] at hslot
    cases slot with
    | some h0 => simp at hslot
    | none =>
      simp [async_base.begin_do_something, h, async_base.has_do_something_handler,
        handler_storage.put, handler_storage.has_target, handler_storage.post,
        async_base.complete_do_something, async_base.run_io_service]

/-- Both cases of C8 on a fresh object with handler 5: an immediate success is
queued, and without a result the handler is stored. -/
theorem begin_do_something_schedules_or_stores_witness :
    (∃ a1, (⟨(), ⟨none⟩, [], []⟩ : async_base Unit Nat).begin_do_something
        (fun d => (d, some error_code.success)) 5 = Except.ok a1
      ∧ a1.io_service_ = [(5, error_code.success)])
    ∧ (∃ a1, (⟨(), ⟨none⟩, [], []⟩ : async_base Unit Nat).begin_do_something
        (fun d => (d, none)) 5 = Except.ok a1
      ∧ a1.has_do_something_handler = true) := by
  constructor
  · obtain ⟨a1, h1, h2, _⟩ := (begin_do_something_schedules_or_stores
      (fun d => (d, some error_code.success)) (⟨(), ⟨none⟩, [], []⟩ : async_base Unit Nat) 5).1
      () error_code.success rfl
    exact ⟨a1, h1, h2⟩
  · obtain ⟨a1, h1, _, _, _, h5, _⟩ := (begin_do_something_schedules_or_stores
      (fun d => (d, none)) (⟨(), ⟨none⟩, [], []⟩ : async_base Unit Nat) 5).2 () rfl rfl
    exact ⟨a1, h1, h5⟩

end ma.tutorial
